import Mathlib

/-!
Verification of the SNMP profile generation tool
(datadog_checks_dev/datadog_checks/dev/tooling/commands/meta/snmp/generate_profile.py).

The Python source is shallowly embedded below: strings are lists of
characters, dictionaries with a fixed key schema are structures with
optional fields, mutable dictionaries shared by reference are modelled
with an explicit store of numbered cells, and Python exceptions are
modelled with the `Except` monad.  File system and clipboard plumbing is
out of scope; the embedded functions receive the already loaded JSON
trees and profile documents as values.
-/

set_option maxRecDepth 10000

/-- Python strings, modelled as lists of characters. -/
abbrev PyStr := List Char

/-- The Python exceptions that the embedded code can raise.
`oidNodeInvalid` models the OidNodeInvalid exception class; the other
constructors model built-in interpreter errors reachable in this code. -/
inductive PyErr where
  | oidNodeInvalid
  | attributeError
  | keyError
  | unboundLocal
  deriving DecidableEq, Repr

/-- Python str.endswith, on list-of-character strings. -/
def endswith (s suf : PyStr) : Bool := decide (suf <:+ s)

/-- Python str.startswith, on list-of-character strings.  Used only to
state (not to implement) the OID filter claims: the source never calls
startswith. -/
def startsWithStr : PyStr → PyStr → Bool
  | [], _ => true
  | _ :: _, [] => false
  | c :: p, d :: s => decide (c = d) && startsWithStr p s

/-- Python substring membership (`needle in hay` on strings): true when
the needle occurs contiguously anywhere inside the haystack. -/
def containsSub (needle : PyStr) : PyStr → Bool
  | [] => startsWithStr needle []
  | c :: t => startsWithStr needle (c :: t) || containsSub needle t

/-- The scalar branch of generate_profile_from_mibs normalises an OID by
appending ".0" when it does not already end with ".0":
    if not oid.endswith(".0"): oid = oid + ".0" -/
def normalize_scalar_oid (oid : PyStr) : PyStr :=
  if endswith oid ".0".data then oid else oid ++ ".0".data

/-- Python str.split on the fixed one-character separator "." used by the
source: oid.split(".").  On the empty string Python returns [""]. -/
def pySplitDot : PyStr → List PyStr
  | [] => [[]]
  | c :: rest =>
    if c = '.' then [] :: pySplitDot rest
    else
      match pySplitDot rest with
      | [] => [[c]]
      | s :: ss => (c :: s) :: ss

/-- Python ".".join on a list of components. -/
def pyJoinDot : List PyStr → PyStr
  | [] => []
  | [s] => s
  | s :: t :: rest => s ++ '.' :: pyJoinDot (t :: rest)

/-- The column branch of generate_profile_from_mibs derives the owning
table OID of a column by dropping the last two dot components:
    table_oid = ".".join(oid.split(".")[:-2]) -/
def column_table_oid (oid : PyStr) : PyStr :=
  pyJoinDot ((pySplitDot oid).dropLast.dropLast)

theorem pySplitDot_ne_nil (s : PyStr) : pySplitDot s ≠ [] := by
  cases s with
  | nil => simp [pySplitDot]
  | cons c rest =>
    simp only [pySplitDot]
    split
    · simp
    · cases h : pySplitDot rest <;> simp

theorem pyJoinDot_pySplitDot (s : PyStr) : pyJoinDot (pySplitDot s) = s := by
  induction s with
  | nil => rfl
  | cons c rest ih =>
    rcases h : pySplitDot rest with _ | ⟨s0, ss⟩
    · exact absurd h (pySplitDot_ne_nil rest)
    · rw [h] at ih
      by_cases hc : c = '.'
      · subst hc
        have h1 : pySplitDot ('.' :: rest) = [] :: s0 :: ss := by
          simp [pySplitDot, h]
        rw [h1, show pyJoinDot ([] :: s0 :: ss) = '.' :: pyJoinDot (s0 :: ss) from rfl, ih]
      · have h1 : pySplitDot (c :: rest) = (c :: s0) :: ss := by
          simp only [pySplitDot, h, if_neg hc]
        rw [h1]
        cases ss with
        | nil =>
          have h2 : s0 = rest := ih
          simp [pyJoinDot, h2]
        | cons t ts =>
          have h2 : pyJoinDot ((c :: s0) :: t :: ts)
              = c :: (s0 ++ '.' :: pyJoinDot (t :: ts)) := rfl
          have h3 : pyJoinDot (s0 :: t :: ts) = s0 ++ '.' :: pyJoinDot (t :: ts) := rfl
          rw [h2, ← h3, ih]

theorem pySplitDot_append_dot (a b : PyStr) :
    pySplitDot (a ++ '.' :: b) = pySplitDot a ++ pySplitDot b := by
  induction a with
  | nil => simp [pySplitDot]
  | cons c a' ih =>
    have hstep : (c :: a') ++ '.' :: b = c :: (a' ++ '.' :: b) := rfl
    rw [hstep]
    simp only [pySplitDot]
    rw [ih]
    split
    · rfl
    · rcases h : pySplitDot a' with _ | ⟨s0, ss⟩
      · exact absurd h (pySplitDot_ne_nil a')
      · simp [h]

theorem pySplitDot_no_dot (n : PyStr) (h : '.' ∉ n) : pySplitDot n = [n] := by
  induction n with
  | nil => rfl
  | cons c rest ih =>
    simp only [List.mem_cons, not_or] at h
    simp only [pySplitDot]
    rw [if_neg (fun hc => h.1 hc.symm), ih h.2]

/-- Claim C8: for every column OID of the form X.1.N where N is a single
dot-free component, the computed table OID is exactly X, obtained by
dropping the last two dot components. -/
theorem column_table_oid_reduction (X N : PyStr) (h : '.' ∉ N) :
    column_table_oid (X ++ '.' :: '1' :: '.' :: N) = X := by
  unfold column_table_oid
  have h1 : pySplitDot (X ++ '.' :: '1' :: '.' :: N)
      = pySplitDot X ++ [['1'], N] := by
    rw [pySplitDot_append_dot X ('1' :: '.' :: N)]
    have : ('1' : Char) :: '.' :: N = ['1'] ++ '.' :: N := rfl
    rw [this, pySplitDot_append_dot ['1'] N, pySplitDot_no_dot N h]
    rfl
  rw [h1]
  have h2 : pySplitDot X ++ [['1'], N] = (pySplitDot X ++ [['1']]) ++ [N] := by
    simp
  rw [h2, List.dropLast_concat, List.dropLast_concat, pyJoinDot_pySplitDot]

/-- Witness for C8 on the spec example: column OID 1.3.6.1.2.1.2.2.1.10
reduces to table OID 1.3.6.1.2.1.2.2. -/
theorem column_table_oid_reduction_witness :
    ('.' ∉ "10".data) ∧
      column_table_oid ("1.3.6.1.2.1.2.2".data ++ '.' :: '1' :: '.' :: "10".data)
        = "1.3.6.1.2.1.2.2".data :=
  ⟨by decide, column_table_oid_reduction "1.3.6.1.2.1.2.2".data "10".data (by decide)⟩

/-- Claim C7: scalar OID normalisation appends ".0" exactly when the OID
does not already end in ".0", and is idempotent. -/
theorem scalar_normalization_idempotent (oid : PyStr) :
    normalize_scalar_oid (normalize_scalar_oid oid) = normalize_scalar_oid oid
    ∧ (endswith oid ".0".data = true → normalize_scalar_oid oid = oid)
    ∧ (endswith oid ".0".data = false → normalize_scalar_oid oid = oid ++ ".0".data) := by
  refine ⟨?_, ?_, ?_⟩
  · by_cases h : endswith oid ".0".data
    · simp [normalize_scalar_oid, h]
    · have h2 : endswith (oid ++ ".0".data) ".0".data = true := by
        simp only [endswith]
        exact decide_eq_true (List.suffix_append oid ".0".data)
      simp [normalize_scalar_oid, h, h2]
  · intro h; simp [normalize_scalar_oid, h]
  · intro h; simp [normalize_scalar_oid, h]

/-- Witness for C7 at a concrete OID without the ".0" ending. -/
theorem scalar_normalization_idempotent_witness :
    endswith "1.3.6.1.2.1.1.1".data ".0".data = false
    ∧ normalize_scalar_oid "1.3.6.1.2.1.1.1".data
        = "1.3.6.1.2.1.1.1".data ++ ".0".data :=
  ⟨by decide, (scalar_normalization_idempotent "1.3.6.1.2.1.1.1".data).2.2 (by decide)⟩


/-- A raw MIB JSON node record.  Each field models the presence or
absence of the corresponding dictionary key (name, oid, class, nodetype,
maxaccess, description, mib).  The mib key is absent in loader output and
is written by OidNode.init. -/
structure RawRecord where
  name : Option PyStr
  oid : Option PyStr
  cls : Option PyStr
  nodetype : Option PyStr
  maxaccess : Option PyStr
  description : Option PyStr
  mibKey : Option PyStr
  deriving DecidableEq, Repr

/-- The classified node built by OidNode.__init__.  When the record class
is not "objecttype" the source sets only is_object and returns: the other
attributes are never created, and downstream code reads them only after
checking is_object, so they are filled with inert defaults in that case.
node_type is Option because the source sets the attribute only when the
record has a nodetype key; reading it on an unknown node is an
AttributeError. -/
structure OidNode where
  is_object : Bool
  name : PyStr
  oid : PyStr
  mib : PyStr
  node : RawRecord
  is_readable : Bool
  is_middle_node : Bool
  is_unknown : Bool
  max_access : Option PyStr
  node_type : Option PyStr
  description : Option PyStr
  deriving DecidableEq, Repr

/-- OidNode.__init__(mib, mib_json_node): raises OidNodeInvalid when oid,
name or class is missing; returns early (only is_object set) when class
is not "objecttype"; otherwise fills the attributes and writes the mib
key into the input record (self.node = mib_json_node followed by
self.node["mib"] = mib mutates the caller record through the alias).
The returned pair carries the node and the record as the caller sees it
after construction. -/
def OidNode.init (mib : PyStr) (r : RawRecord) : Except PyErr (OidNode × RawRecord) :=
  match r.oid, r.name, r.cls with
  | some o, some nm, some cl =>
    if cl ≠ "objecttype".data then
      .ok ({ is_object := false, name := [], oid := [], mib := [],
             node := r, is_readable := false, is_middle_node := false,
             is_unknown := false, max_access := none, node_type := none,
             description := none }, r)
    else
      let r2 := { r with mibKey := some mib }
      .ok ({ is_object := true, name := nm, oid := o, mib := mib, node := r2,
             is_readable := true,
             is_middle_node :=
               match r.nodetype with
               | some t => decide (t ≠ "table".data ∧ t ≠ "scalar".data ∧ t ≠ "column".data)
               | none => false,
             is_unknown := r.nodetype.isNone,
             max_access := r.maxaccess,
             node_type := r.nodetype,
             description := r.description }, r2)
  | _, _, _ => .error .oidNodeInvalid

/-- A concrete objecttype record with no mib key, used to exhibit the
mutation performed by OidNode.init. -/
def rec6 : RawRecord :=
  { name := some "sysDescr".data, oid := some "1.3.6.1.2.1.1.1".data,
    cls := some "objecttype".data, nodetype := some "scalar".data,
    maxaccess := none, description := none, mibKey := none }

/-- Claim C6 is false on the code: classifying an objecttype record is
not pure, it writes the mib key into the input record.  At the concrete
record rec6 the record seen by the caller after construction differs
from the input. -/
theorem classify_purity_counterexample :
    (match OidNode.init "RFC1213-MIB".data rec6 with
     | .ok p => p.2
     | .error _ => rec6)
      = { rec6 with mibKey := some "RFC1213-MIB".data }
    ∧ { rec6 with mibKey := some "RFC1213-MIB".data } ≠ rec6 := by
  constructor
  · rfl
  · decide

/-- Claim C6 amended: classification mutates the input record exactly by
setting its mib key to the MIB name, and only when the record class is
"objecttype"; records of any other class (and rejected records) are left
unchanged. -/
theorem classify_mutation_spec (mib : PyStr) (r : RawRecord) (n : OidNode)
    (r2 : RawRecord) (h : OidNode.init mib r = .ok (n, r2)) :
    r2 = if r.cls = some "objecttype".data then { r with mibKey := some mib } else r := by
  unfold OidNode.init at h
  rcases ho : r.oid with _ | o <;> rcases hn : r.name with _ | nm <;>
    rcases hc : r.cls with _ | cl <;> simp [ho, hn, hc] at h
  by_cases hcl : cl = "objecttype".data
  · simp [hcl] at h ⊢
    exact h.2.symm
  · simp [hcl] at h ⊢
    exact h.2.symm

/-- Witness for the amended C6 at a concrete objecttype record. -/
theorem classify_mutation_spec_witness :
    OidNode.init "RFC1213-MIB".data rec6
      = .ok ({ is_object := true, name := "sysDescr".data,
               oid := "1.3.6.1.2.1.1.1".data, mib := "RFC1213-MIB".data,
               node := { rec6 with mibKey := some "RFC1213-MIB".data },
               is_readable := true, is_middle_node := false,
               is_unknown := false, max_access := none,
               node_type := some "scalar".data, description := none },
             { rec6 with mibKey := some "RFC1213-MIB".data })
    ∧ ({ rec6 with mibKey := some "RFC1213-MIB".data } : RawRecord)
        = if rec6.cls = some "objecttype".data
          then { rec6 with mibKey := some "RFC1213-MIB".data } else rec6 := by
  constructor
  · rfl
  · exact classify_mutation_spec "RFC1213-MIB".data rec6 _ _ (by rfl)

/-- First-match association lookup, modelling Python dict access d[k]
on our assoc-list encoding of JSON objects (real inputs have unique
keys). -/
def alookup {α : Type} (k : PyStr) : List (PyStr × α) → Option α
  | [] => none
  | (k2, v) :: t => if k2 = k then some v else alookup k t

/-- Python dict assignment d[k] = v: replaces the value in place when the
key exists (keeping its position) and appends the pair otherwise.  This
is also the OrderedDict assignment used by the profile assembler. -/
def odSet {α : Type} : List (PyStr × α) → PyStr → α → List (PyStr × α)
  | [], k, v => [(k, v)]
  | (k2, v2) :: t, k, v =>
    if k2 = k then (k2, v) :: t else (k2, v2) :: odSet t k v

/-- Python dict.update(other): assigns every pair of other, in order. -/
def odUpdate {α : Type} (l upd : List (PyStr × α)) : List (PyStr × α) :=
  upd.foldl (fun acc p => odSet acc p.1 p.2) l

/-- The dict comprehension inside _filter_mib_oids:
{node_name: node for (node_name, node) in json_mib.items()
 if "oid" in node and root_node["oid"] in node["oid"]}.
Reading root_node["oid"] raises KeyError when the root record has no oid
key; the short-circuit skips that read for nodes without an oid key. -/
def filterByRoot (rootOid : Option PyStr) :
    List (PyStr × RawRecord) → Except PyErr (List (PyStr × RawRecord))
  | [] => .ok []
  | (k, n) :: t =>
    match n.oid with
    | none => filterByRoot rootOid t
    | some o =>
      match rootOid with
      | none => .error .keyError
      | some ro =>
        match filterByRoot rootOid t with
        | .error e => .error e
        | .ok r => .ok (if containsSub ro o then (k, n) :: r else r)

/-- The loop of _filter_mib_oids over the configured root names:
roots absent from the tree are skipped, each present root contributes
its substring selection, and contributions are merged with dict
update. -/
def filterRoots (json_mib : List (PyStr × RawRecord)) :
    List PyStr → List (PyStr × RawRecord) → Except PyErr (List (PyStr × RawRecord))
  | [], acc => .ok acc
  | rt :: rest, acc =>
    match alookup rt json_mib with
    | none => filterRoots json_mib rest acc
    | some rootRec =>
      match filterByRoot rootRec.oid json_mib with
      | .error e => .error e
      | .ok fl => filterRoots json_mib rest (odUpdate acc fl)

/-- _filter_mib_oids(mib, json_mib, filter_data): no filtering when no
filter document is given or the MIB has no entry in it. -/
def filter_mib_oids (mib : PyStr) (json_mib : List (PyStr × RawRecord))
    (filter_data : Option (List (PyStr × List PyStr))) :
    Except PyErr (List (PyStr × RawRecord)) :=
  match filter_data with
  | none => .ok json_mib
  | some fd =>
    match alookup mib fd with
    | none => .ok json_mib
    | some roots => filterRoots json_mib roots []

/-- Does the named root, looked up in the tree, select a record with OID
o?  Matching is substring containment, exactly as in the source. -/
def rootMatches (json_mib : List (PyStr × RawRecord)) (o : PyStr) (rt : PyStr) : Bool :=
  match alookup rt json_mib with
  | none => false
  | some rr =>
    match rr.oid with
    | none => false
    | some ro => containsSub ro o

/-- A record is retained by the filter when some configured root present
in the tree has an OID occurring inside the record OID. -/
def keptByFilter (json_mib : List (PyStr × RawRecord)) (roots : List PyStr)
    (n : RawRecord) : Bool :=
  match n.oid with
  | none => false
  | some o => roots.any (rootMatches json_mib o)

theorem alookup_eq_none {α : Type} (k : PyStr) (l : List (PyStr × α))
    (h : k ∉ l.map Prod.fst) : alookup k l = none := by
  induction l with
  | nil => rfl
  | cons p t ih =>
    obtain ⟨k2, v⟩ := p
    simp only [List.map_cons, List.mem_cons, not_or] at h
    simp only [alookup]
    rw [if_neg (fun he => h.1 he.symm)]
    exact ih h.2

theorem alookup_odSet {α : Type} (l : List (PyStr × α)) (k0 k : PyStr) (v0 : α) :
    alookup k (odSet l k0 v0) = if k0 = k then some v0 else alookup k l := by
  induction l with
  | nil => simp [odSet, alookup]
  | cons p t ih =>
    obtain ⟨k2, v2⟩ := p
    by_cases h20 : k2 = k0
    · subst h20
      simp only [odSet, if_pos rfl, alookup]
      by_cases h2k : k2 = k <;> simp [h2k, alookup]
    · simp only [odSet, if_neg h20, alookup, ih]
      by_cases h0k : k0 = k <;> by_cases h2k : k2 = k <;> simp_all

theorem alookup_odUpdate {α : Type} (upd : List (PyStr × α))
    (hnd : (upd.map Prod.fst).Nodup) (l : List (PyStr × α)) (k : PyStr) :
    alookup k (odUpdate l upd)
      = match alookup k upd with
        | some v => some v
        | none => alookup k l := by
  induction upd generalizing l with
  | nil => simp [odUpdate, alookup]
  | cons p t ih =>
    obtain ⟨k0, v0⟩ := p
    simp only [List.map_cons, List.nodup_cons] at hnd
    have step : odUpdate l ((k0, v0) :: t) = odUpdate (odSet l k0 v0) t := rfl
    rw [step, ih hnd.2]
    by_cases h0 : k0 = k
    · subst h0
      have hnone : alookup k0 t = none := alookup_eq_none k0 t hnd.1
      simp [alookup, hnone, alookup_odSet]
    · rw [alookup_odSet]
      simp only [alookup, if_neg h0]

/-- The retention predicate of the comprehension in _filter_mib_oids,
for a fixed root record OID. -/
def rootPred (ro : Option PyStr) (p : PyStr × RawRecord) : Bool :=
  match p.2.oid, ro with
  | some o, some r => containsSub r o
  | _, _ => false

theorem alookup_filter (p : PyStr × RawRecord → Bool) (l : List (PyStr × RawRecord))
    (hnd : (l.map Prod.fst).Nodup) (k : PyStr) :
    alookup k (l.filter p)
      = match alookup k l with
        | some n => if p (k, n) then some n else none
        | none => none := by
  induction l with
  | nil => rfl
  | cons q t ih =>
    obtain ⟨k2, n⟩ := q
    simp only [List.map_cons, List.nodup_cons] at hnd
    have ih2 := ih hnd.2
    by_cases h2 : k2 = k
    · subst h2
      have hnone : alookup k2 t = none := alookup_eq_none k2 t hnd.1
      by_cases hp : p (k2, n)
      · rw [List.filter_cons, if_pos hp]
        simp [alookup, hp]
      · rw [List.filter_cons, if_neg (by simpa using hp), ih2, hnone]
        simp [alookup, hp]
    · by_cases hp : p (k2, n)
      · rw [List.filter_cons, if_pos hp]
        simp only [alookup, if_neg h2]
        exact ih2
      · rw [List.filter_cons, if_neg (by simpa using hp), ih2]
        simp only [alookup, if_neg h2]

theorem filterByRoot_ok (ro : Option PyStr) (l : List (PyStr × RawRecord))
    (res : List (PyStr × RawRecord)) (h : filterByRoot ro l = .ok res) :
    res = l.filter (rootPred ro) := by
  induction l generalizing res with
  | nil =>
    simp only [filterByRoot] at h
    cases h
    rfl
  | cons q t ih =>
    obtain ⟨k, n⟩ := q
    simp only [filterByRoot] at h
    cases hoid : n.oid with
    | none =>
      rw [hoid] at h
      rw [List.filter_cons, if_neg (by simp [rootPred, hoid]), ih res h]
    | some o =>
      rw [hoid] at h
      cases ro with
      | none => cases h
      | some r =>
        cases ht : filterByRoot (some r) t with
        | error e => rw [ht] at h; cases h
        | ok r1 =>
          rw [ht] at h
          cases h
          rw [List.filter_cons]
          by_cases hc : containsSub r o
          · rw [if_pos hc, ih r1 ht]
            simp [rootPred, hoid, hc]
          · rw [if_neg hc, ih r1 ht]
            simp [rootPred, hoid, hc]

theorem filterRoots_ok (json_mib : List (PyStr × RawRecord))
    (hnd : (json_mib.map Prod.fst).Nodup) (roots : List PyStr) :
    ∀ acc res, filterRoots json_mib roots acc = .ok res →
      ∀ k, alookup k res
        = match alookup k json_mib with
          | some n => if keptByFilter json_mib roots n then some n else alookup k acc
          | none => alookup k acc := by
  induction roots with
  | nil =>
    intro acc res h k
    simp only [filterRoots] at h
    cases h
    cases halk : alookup k json_mib with
    | none => rfl
    | some n =>
      have hk : keptByFilter json_mib [] n = false := by
        unfold keptByFilter
        cases n.oid <;> simp
      simp [hk]
  | cons rt rest ih =>
    intro acc res h k
    simp only [filterRoots] at h
    cases hrt : alookup rt json_mib with
    | none =>
      rw [hrt] at h
      dsimp only at h
      have hres := ih acc res h k
      cases halk : alookup k json_mib with
      | none => rw [halk] at hres; exact hres
      | some n =>
        rw [halk] at hres
        dsimp only at hres
        dsimp only
        have hkept : keptByFilter json_mib (rt :: rest) n
            = keptByFilter json_mib rest n := by
          unfold keptByFilter
          cases n.oid with
          | none => rfl
          | some o => simp [List.any_cons, rootMatches, hrt]
        rw [hkept]
        exact hres
    | some rr =>
      rw [hrt] at h
      dsimp only at h
      cases hfl : filterByRoot rr.oid json_mib with
      | error e => rw [hfl] at h; cases h
      | ok fl =>
        rw [hfl] at h
        have hflspec := filterByRoot_ok rr.oid json_mib fl hfl
        have hfnd : (fl.map Prod.fst).Nodup := by
          rw [hflspec]
          exact List.Nodup.sublist
            (List.Sublist.map Prod.fst (List.filter_sublist json_mib)) hnd
        have hres := ih (odUpdate acc fl) res h k
        have hupd := alookup_odUpdate fl hfnd acc k
        have hafl := alookup_filter (rootPred rr.oid) json_mib hnd k
        rw [← hflspec] at hafl
        cases halk : alookup k json_mib with
        | none =>
          rw [halk] at hres hafl
          dsimp only at hres hafl
          dsimp only
          rw [hres, hupd, hafl]
        | some n =>
          rw [halk] at hres hafl
          dsimp only at hres hafl
          dsimp only
          have hsplit : keptByFilter json_mib (rt :: rest) n
              = (rootPred rr.oid (k, n) || keptByFilter json_mib rest n) := by
            unfold keptByFilter rootPred
            cases n.oid with
            | none => rfl
            | some o =>
              simp only [List.any_cons, rootMatches, hrt]
              cases rr.oid <;> rfl
          rw [hsplit]
          by_cases hkrest : keptByFilter json_mib rest n
          · rw [hres, if_pos hkrest]
            simp [hkrest]
          · rw [hres, if_neg hkrest, hupd, hafl]
            by_cases hrp : rootPred rr.oid (k, n)
            · simp [hrp]
            · simp [hrp, hkrest]

/-- Claim C4 amended: matching is substring containment of the root OID
inside the node OID (not a starts-with test).  A MIB without a filter
entry keeps its whole tree, a configured root absent from the tree
contributes nothing, and for a tree with unique names the retained
collection contains exactly the records selected by some configured
root present in the tree. -/
theorem oid_filter_substring_spec :
    (∀ mib jm, filter_mib_oids mib jm none = .ok jm)
    ∧ (∀ mib fd jm, alookup mib fd = none →
        filter_mib_oids mib jm (some fd) = .ok jm)
    ∧ (∀ mib fd jm roots res, (jm.map Prod.fst).Nodup →
        alookup mib fd = some roots →
        filter_mib_oids mib jm (some fd) = .ok res →
        ∀ k, alookup k res
          = match alookup k jm with
            | some n => if keptByFilter jm roots n then some n else none
            | none => none) := by
  refine ⟨fun mib jm => rfl, ?_, ?_⟩
  · intro mib fd jm hmib
    simp [filter_mib_oids, hmib]
  · intro mib fd jm roots res hnd hmib h k
    simp only [filter_mib_oids, hmib] at h
    have hres := filterRoots_ok jm hnd roots [] res h k
    cases halk : alookup k jm with
    | none => rw [halk] at hres; exact hres
    | some n =>
      rw [halk] at hres
      dsimp only at hres
      dsimp only
      rw [hres]
      by_cases hkept : keptByFilter jm roots n
      · rw [if_pos hkept, if_pos hkept]
      · rw [if_neg hkept, if_neg hkept]
        rfl

/-- A root record whose OID 2.1 occurs as a substring, but not as a
starts-with match, inside the OID of recSib. -/
def recRoot : RawRecord :=
  { name := some "r".data, oid := some "2.1".data, cls := some "objecttype".data,
    nodetype := some "table".data, maxaccess := none, description := none,
    mibKey := none }

/-- A sibling record with OID 1.2.1.5, which contains 2.1 only as an
inner substring. -/
def recSib : RawRecord :=
  { name := some "n".data, oid := some "1.2.1.5".data, cls := some "objecttype".data,
    nodetype := some "scalar".data, maxaccess := none, description := none,
    mibKey := none }

/-- A two-node MIB tree for exercising the OID filter. -/
def jm4 : List (PyStr × RawRecord) := [("r".data, recRoot), ("n".data, recSib)]

/-- A filter document selecting root r for MIB M. -/
def fd4 : List (PyStr × List PyStr) := [("M".data, ["r".data])]

/-- Claim C4 is false as stated: filtering MIB M by root r (OID 2.1)
retains node n with OID 1.2.1.5, because 2.1 occurs inside 1.2.1.5 as a
substring, even though 1.2.1.5 does not start with 2.1.  The retained
set is therefore not the starts-with union the claim describes. -/
theorem oid_filter_startswith_counterexample :
    filter_mib_oids "M".data jm4 (some fd4)
      = .ok [("r".data, recRoot), ("n".data, recSib)]
    ∧ startsWithStr "2.1".data "1.2.1.5".data = false := by
  constructor
  · rfl
  · decide

/-- Witness for the amended C4 at the concrete tree jm4: the node n is
retained exactly according to the substring predicate. -/
theorem oid_filter_substring_spec_witness :
    (jm4.map Prod.fst).Nodup
    ∧ alookup "M".data fd4 = some ["r".data]
    ∧ filter_mib_oids "M".data jm4 (some fd4)
        = .ok [("r".data, recRoot), ("n".data, recSib)]
    ∧ alookup "n".data [("r".data, recRoot), ("n".data, recSib)]
        = match alookup "n".data jm4 with
          | some n => if keptByFilter jm4 ["r".data] n then some n else none
          | none => none := by
  refine ⟨by decide, by decide, by rfl, ?_⟩
  exact oid_filter_substring_spec.2.2 "M".data fd4 jm4 ["r".data]
    [("r".data, recRoot), ("n".data, recSib)] (by decide) (by decide) (by rfl)
    "n".data

/-- A symbol sub-dictionary of a profile metrics entry
({name, OID, description}); each field models key presence. -/
structure SymY where
  name : Option PyStr
  oid : Option PyStr
  description : Option PyStr
  deriving DecidableEq, Repr

/-- A table sub-dictionary of a profile metrics entry.  The oid
extraction of update_profile reads the symbols list from inside this
dictionary (metric["table"]["symbols"]). -/
structure TableY where
  name : Option PyStr
  oid : Option PyStr
  symbols : Option (List SymY)
  deriving DecidableEq, Repr

/-- A profile metrics entry as read from YAML: MIB key, optional table
dictionary, optional symbol dictionary. -/
structure MetricY where
  mib : Option PyStr
  table : Option TableY
  symbol : Option SymY
  deriving DecidableEq, Repr

/-- The scalar branch of _extract_oid_collection_from_profile_data
removes one trailing ".0": if oid.endswith(".0"): oid = oid[:-2]. -/
def stripDot0 (oid : PyStr) : PyStr :=
  if endswith oid ".0".data then oid.dropLast.dropLast else oid

/-- The symbols loop of _extract_oid_collection_from_profile_data: each
symbol with an OID key contributes that OID as a collection key; reading
symbol["name"] raises KeyError when the name key is absent. -/
def symbolKeys : List SymY → Except PyErr (List PyStr)
  | [] => .ok []
  | s :: rest =>
    match s.oid with
    | none => symbolKeys rest
    | some o =>
      match s.name with
      | none => .error .keyError
      | some _ =>
        match symbolKeys rest with
        | .error e => .error e
        | .ok r => .ok (o :: r)

/-- The keys inserted into the oid collection for one metrics entry by
_extract_oid_collection_from_profile_data: metric["MIB"] is read first
(KeyError when absent), then a table entry contributes its table OID
(reading table["name"], KeyError when absent) followed by its symbol
OIDs, and a scalar entry contributes its symbol OID with one trailing
".0" removed.  Only the key sequence is modelled: update_profile
consumes the collection through key membership alone, and the collection
values (aliased through one mutable dict per entry in the source) are
never read. -/
def metricKeys (m : MetricY) : Except PyErr (List PyStr) :=
  match m.mib with
  | none => .error .keyError
  | some _ =>
    match m.table with
    | some t =>
      match
        (match t.oid with
         | none => Except.ok ([] : List PyStr)
         | some o =>
           match t.name with
           | none => Except.error PyErr.keyError
           | some _ => Except.ok [o]) with
      | .error e => .error e
      | .ok k1 =>
        match t.symbols with
        | none => .ok k1
        | some syms =>
          match symbolKeys syms with
          | .error e => .error e
          | .ok k2 => .ok (k1 ++ k2)
    | none =>
      match m.symbol with
      | some s =>
        match s.oid with
        | none => .ok []
        | some o =>
          match s.name with
          | none => .error .keyError
          | some _ => .ok [stripDot0 o]
      | none => .ok []

/-- The key sequence of the oid collection built by
_extract_oid_collection_from_profile_data over data["metrics"]. -/
def extract_oid_collection_keys : List MetricY → Except PyErr (List PyStr)
  | [] => .ok []
  | m :: rest =>
    match metricKeys m with
    | .error e => .error e
    | .ok k1 =>
      match extract_oid_collection_keys rest with
      | .error e => .error e
      | .ok kr => .ok (k1 ++ kr)

/-- The per-entry OID selection of the update_profile output loop:
table entries use metric["table"]["OID"] (KeyError when the table dict
has no OID key), scalar entries use metric["symbol"]["OID"], and entries
with neither key are skipped. -/
def entryOid (m : MetricY) : Option (Option PyStr) :=
  match m.table with
  | some t => some t.oid
  | none =>
    match m.symbol with
    | some s => some s.oid
    | none => none

/-- The output loop of update_profile: keep, in new-list order, the
entries whose selected OID is not among the old collection keys. -/
def update_profile_filter (ks : List PyStr) : List MetricY → Except PyErr (List MetricY)
  | [] => .ok []
  | m :: rest =>
    match entryOid m with
    | none => update_profile_filter ks rest
    | some none => .error .keyError
    | some (some o) =>
      match update_profile_filter ks rest with
      | .error e => .error e
      | .ok r => .ok (if o ∈ ks then r else m :: r)

/-- update_profile on an already expanded old profile: build the old oid
key collection, then filter the new metrics list. -/
def update_profile_core (old nw : List MetricY) : Except PyErr (List MetricY) :=
  match extract_oid_collection_keys old with
  | .error e => .error e
  | .ok ks => update_profile_filter ks nw

/-- The retention predicate realised by the update_profile output loop. -/
def keptByDiff (ks : List PyStr) (m : MetricY) : Bool :=
  match entryOid m with
  | some (some o) => decide (o ∉ ks)
  | _ => false

theorem update_profile_filter_ok (ks : List PyStr) :
    ∀ ms out, update_profile_filter ks ms = .ok out →
      out = ms.filter (keptByDiff ks) := by
  intro ms
  induction ms with
  | nil => intro out h; cases h; rfl
  | cons m rest ih =>
    intro out h
    simp only [update_profile_filter] at h
    cases heo : entryOid m with
    | none =>
      simp only [heo] at h
      rw [List.filter_cons, if_neg (by simp [keptByDiff, heo]), ih out h]
    | some oo =>
      cases oo with
      | none => simp only [heo] at h; cases h
      | some o =>
        simp only [heo] at h
        cases hr : update_profile_filter ks rest with
        | error e => simp only [hr] at h; cases h
        | ok r =>
          simp only [hr] at h
          cases h
          rw [List.filter_cons, ih r hr]
          by_cases hin : o ∈ ks
          · rw [if_pos hin, if_neg (by simp [keptByDiff, heo, hin])]
          · rw [if_neg hin, if_pos (by simp [keptByDiff, heo, hin])]

/-- Claim C5 amended: the diff retains, in new-list order, exactly the
new entries whose selected OID is absent from the old collection key
set, where the key set records table OIDs, table symbol OIDs, and scalar
symbol OIDs with one trailing ".0" stripped (so it is not literally the
set of OID strings occurring in the old metrics).  Entries with neither
table nor symbol are skipped without error. -/
theorem update_diff_filter_spec (old nw ks out : _)
    (h1 : extract_oid_collection_keys old = .ok ks)
    (h2 : update_profile_filter ks nw = .ok out) :
    out = nw.filter (keptByDiff ks) :=
  update_profile_filter_ok ks nw out h2

/-- The scalar symbol with OID 1.2.3.0 shared by the old and new profile
of the C5 counterexample. -/
def sym5 : SymY :=
  { name := some "s".data, oid := some "1.2.3.0".data, description := none }

/-- A one-entry profile metrics list holding the scalar sym5. -/
def prof5 : List MetricY :=
  [{ mib := some "M".data, table := none, symbol := some sym5 }]

/-- Claim C5 is false as stated: diffing a profile against itself is not
empty.  The old profile holds a scalar entry with OID 1.2.3.0, and the
identical new entry carries the same OID, which therefore occurs in the
old metrics; yet the code keys old scalar entries by the OID with the
trailing ".0" stripped (1.2.3), so the new entry is retained instead of
excluded. -/
theorem update_diff_oid_set_counterexample :
    extract_oid_collection_keys prof5 = .ok ["1.2.3".data]
    ∧ update_profile_core prof5 prof5 = .ok prof5
    ∧ entryOid { mib := some "M".data, table := none, symbol := some sym5 }
        = some (some "1.2.3.0".data) := by
  refine ⟨rfl, rfl, rfl⟩

/-- Old profile of the C5 witness: scalar OID 1.1 and table OID 2.2. -/
def oldW : List MetricY :=
  [{ mib := some "M".data, table := none,
     symbol := some { name := some "a".data, oid := some "1.1".data, description := none } },
   { mib := some "M".data,
     table := some { name := some "b".data, oid := some "2.2".data, symbols := none },
     symbol := none }]

/-- New metrics of the C5 witness: OIDs 1.1 (already present) and 3.3. -/
def newW : List MetricY :=
  [{ mib := some "M".data, table := none,
     symbol := some { name := some "a".data, oid := some "1.1".data, description := none } },
   { mib := some "M".data, table := none,
     symbol := some { name := some "c".data, oid := some "3.3".data, description := none } }]

/-- Witness for the amended C5 on the spec example shape: old OIDs
{1.1, 2.2}, new OIDs {1.1, 3.3}, and the diff keeps exactly the 3.3
entry. -/
theorem update_diff_filter_spec_witness :
    extract_oid_collection_keys oldW = .ok ["1.1".data, "2.2".data]
    ∧ update_profile_filter ["1.1".data, "2.2".data] newW
        = .ok [{ mib := some "M".data, table := none,
                 symbol := some { name := some "c".data, oid := some "3.3".data,
                                  description := none } }]
    ∧ [({ mib := some "M".data, table := none,
          symbol := some { name := some "c".data, oid := some "3.3".data,
                           description := none } } : MetricY)]
        = newW.filter (keptByDiff ["1.1".data, "2.2".data]) :=
  ⟨rfl, rfl, update_diff_filter_spec oldW newW ["1.1".data, "2.2".data] _ rfl rfl⟩

theorem symbolKeys_mem (s : SymY) (o : PyStr) (ho : s.oid = some o) :
    ∀ syms l, symbolKeys syms = .ok l → s ∈ syms → o ∈ l := by
  intro syms
  induction syms with
  | nil => intro l h hs; cases hs
  | cons s0 rest ih =>
    intro l h hs
    simp only [symbolKeys] at h
    rcases List.mem_cons.mp hs with hs0 | hmem
    · subst hs0
      simp only [ho] at h
      cases hn : s.name with
      | none => simp only [hn] at h; cases h
      | some nm =>
        simp only [hn] at h
        cases hk : symbolKeys rest with
        | error e => simp only [hk] at h; cases h
        | ok r =>
          simp only [hk] at h
          cases h
          exact List.mem_cons_self o r
    · cases ho0 : s0.oid with
      | none =>
        simp only [ho0] at h
        exact ih l h hmem
      | some o0 =>
        simp only [ho0] at h
        cases hn0 : s0.name with
        | none => simp only [hn0] at h; cases h
        | some nm0 =>
          simp only [hn0] at h
          cases hk : symbolKeys rest with
          | error e => simp only [hk] at h; cases h
          | ok r =>
            simp only [hk] at h
            cases h
            exact List.mem_cons_of_mem o0 (ih r hk hmem)

theorem metricKeys_mem (m : MetricY) (l : List PyStr)
    (h : metricKeys m = .ok l) (t : TableY) (syms : List SymY) (s : SymY)
    (o : PyStr) (ht : m.table = some t) (hsy : t.symbols = some syms)
    (hs : s ∈ syms) (ho : s.oid = some o) : o ∈ l := by
  simp only [metricKeys] at h
  cases hm : m.mib with
  | none => simp only [hm] at h; cases h
  | some mb =>
    simp only [hm, ht] at h
    cases hk1 : (match t.oid with
      | none => Except.ok ([] : List PyStr)
      | some o =>
        match t.name with
        | none => Except.error PyErr.keyError
        | some _ => Except.ok [o]) with
    | error e => simp only [hk1] at h; cases h
    | ok k1 =>
      simp only [hk1, hsy] at h
      cases hk2 : symbolKeys syms with
      | error e => simp only [hk2] at h; cases h
      | ok k2 =>
        simp only [hk2] at h
        cases h
        exact List.mem_append_right k1 (symbolKeys_mem s o ho syms k2 hk2 hs)

theorem extract_keys_mem (m : MetricY) :
    ∀ old ks, extract_oid_collection_keys old = .ok ks → m ∈ old →
      ∃ l, metricKeys m = .ok l ∧ ∀ o ∈ l, o ∈ ks := by
  intro old
  induction old with
  | nil => intro ks h hm; cases hm
  | cons m0 rest ih =>
    intro ks h hm
    simp only [extract_oid_collection_keys] at h
    cases hk1 : metricKeys m0 with
    | error e => simp only [hk1] at h; cases h
    | ok k1 =>
      simp only [hk1] at h
      cases hkr : extract_oid_collection_keys rest with
      | error e => simp only [hkr] at h; cases h
      | ok kr =>
        simp only [hkr] at h
        cases h
        rcases List.mem_cons.mp hm with hm0 | hmem
        · subst hm0
          exact ⟨k1, hk1, fun o hol => List.mem_append_left kr hol⟩
        · obtain ⟨l, hl, hsub⟩ := ih kr hkr hmem
          exact ⟨l, hl, fun o hol => List.mem_append_right k1 (hsub o hol)⟩

/-- Claim C10: the OID of every symbol inside the symbols list of an old table entry
is included in the old collection key set, and consequently
a new metrics entry whose selected top-level OID equals such a column
OID never appears in the update output. -/
theorem old_table_symbol_oids_in_diff_set
    (old : List MetricY) (ks : List PyStr)
    (h1 : extract_oid_collection_keys old = .ok ks)
    (m : MetricY) (t : TableY) (syms : List SymY) (s : SymY) (o : PyStr)
    (hm : m ∈ old) (ht : m.table = some t) (hsy : t.symbols = some syms)
    (hs : s ∈ syms) (ho : s.oid = some o)
    (nw out : List MetricY) (h2 : update_profile_filter ks nw = .ok out)
    (e : MetricY) (he : e ∈ out) :
    o ∈ ks ∧ entryOid e ≠ some (some o) := by
  obtain ⟨l, hl, hsub⟩ := extract_keys_mem m old ks h1 hm
  have hoks : o ∈ ks := hsub o (metricKeys_mem m l hl t syms s o ht hsy hs ho)
  refine ⟨hoks, ?_⟩
  intro heo
  rw [update_profile_filter_ok ks nw out h2] at he
  have hkept := List.of_mem_filter he
  rw [keptByDiff, heo] at hkept
  simp at hkept
  exact hkept hoks

/-- The column symbol of the C10 witness table. -/
def colT : SymY :=
  { name := some "col".data, oid := some "9.9.1.1.2".data, description := none }

/-- The table dictionary of the C10 witness, with colT inside its
symbols list. -/
def tblT : TableY :=
  { name := some "tbl".data, oid := some "9.9.1".data, symbols := some [colT] }

/-- Old profile of the C10 witness: one table entry. -/
def oldT : List MetricY := [{ mib := some "M".data, table := some tblT, symbol := none }]

/-- New entry whose top-level table OID equals the old column OID. -/
def entO : MetricY :=
  { mib := some "M".data,
    table := some { name := some "tbl2".data, oid := some "9.9.1.1.2".data,
                    symbols := none },
    symbol := none }

/-- New entry with a fresh OID, retained by the diff. -/
def entK : MetricY :=
  { mib := some "M".data, table := none,
    symbol := some { name := some "k".data, oid := some "5.5".data,
                     description := none } }

/-- New metrics of the C10 witness. -/
def newT : List MetricY := [entO, entK]

/-- Witness for C10: the old column OID 9.9.1.1.2 lands in the key set,
the new entry carrying it is dropped, and the surviving entry does not
carry it. -/
theorem old_table_symbol_oids_in_diff_set_witness :
    extract_oid_collection_keys oldT = .ok ["9.9.1".data, "9.9.1.1.2".data]
    ∧ update_profile_filter ["9.9.1".data, "9.9.1.1.2".data] newT = .ok [entK]
    ∧ ("9.9.1.1.2".data ∈ ["9.9.1".data, "9.9.1.1.2".data]
        ∧ entryOid entK ≠ some (some "9.9.1.1.2".data)) := by
  refine ⟨rfl, rfl, ?_⟩
  exact old_table_symbol_oids_in_diff_set oldT ["9.9.1".data, "9.9.1.1.2".data] rfl
    { mib := some "M".data, table := some tblT, symbol := none } tblT [colT] colT
    "9.9.1.1.2".data (by simp [oldT]) rfl rfl (by simp) rfl
    newT [entK] rfl entK (by simp)

/-- The table sub-dictionary built by the assembler; name and
description are absent in a provisionally created table. -/
structure TableD where
  name : Option PyStr
  oid : PyStr
  description : Option PyStr
  deriving DecidableEq, Repr

/-- A symbol dictionary built by the assembler. -/
structure SymD where
  name : PyStr
  oid : PyStr
  description : Option PyStr
  deriving DecidableEq, Repr

/-- One profile_node dictionary of the assembler.  symbolsRef points
into a store of symbols lists, mirroring the Python list object that
aliased dictionaries share. -/
structure ProfileD where
  mib : PyStr
  table : Option TableD
  symbolsRef : Option Nat
  symbol : Option SymD
  deriving DecidableEq, Repr

/-- The mutable state of the generate_profile_from_mibs loop: a store of
profile_node dictionaries, a store of symbols lists, the OrderedDict
profile_oid_collection mapping OID keys to dictionary references, and
the loop-local variable profile_node, which Python leaks across
iterations (none models the unbound state before any assignment). -/
structure GenState where
  dicts : List ProfileD
  lists : List (List SymD)
  coll : List (PyStr × Nat)
  pnode : Option Nat
  deriving DecidableEq, Repr

def GenState.empty : GenState :=
  { dicts := [], lists := [], coll := [], pnode := none }

def getDict (st : GenState) (r : Nat) : ProfileD :=
  st.dicts.getD r { mib := [], table := none, symbolsRef := none, symbol := none }

def setDict (st : GenState) (r : Nat) (d : ProfileD) : GenState :=
  { st with dicts := st.dicts.set r d }

def allocDict (st : GenState) (d : ProfileD) : GenState × Nat :=
  ({ st with dicts := st.dicts ++ [d] }, st.dicts.length)

def getList (st : GenState) (r : Nat) : List SymD := st.lists.getD r []

def setList (st : GenState) (r : Nat) (l : List SymD) : GenState :=
  { st with lists := st.lists.set r l }

def allocList (st : GenState) (l : List SymD) : GenState × Nat :=
  ({ st with lists := st.lists ++ [l] }, st.lists.length)

/-- One iteration of the generate_profile_from_mibs loop.  Reading
node_type on an unknown node raises AttributeError (the attribute was
never set).  The table branch merges accumulated symbols by taking over
the existing symbols list reference (KeyError when the dictionary
sitting at that key has no symbols entry).  The column branch, when the
table OID is not yet a key, reads the leaked loop-local profile_node:
UnboundLocalError when no previous iteration assigned it, otherwise it
mutates the previous dictionary in place and installs that same
dictionary under the new table OID key.  The scalar branch emits a
symbol entry under the normalised OID. -/
def genStep (st : GenState) (node : OidNode) : Except PyErr GenState :=
  match node.node_type with
  | none => .error .attributeError
  | some nt =>
    if nt = "table".data then
      let tbl : TableD :=
        { name := some node.name, oid := node.oid, description := node.description }
      match alookup node.oid st.coll with
      | some r0 =>
        match (getDict st r0).symbolsRef with
        | none => .error .keyError
        | some lref =>
          match allocDict st { mib := node.mib, table := some tbl,
                               symbolsRef := some lref, symbol := none } with
          | (st1, dref) =>
            .ok { st1 with coll := odSet st1.coll node.oid dref, pnode := some dref }
      | none =>
        match allocList st [] with
        | (st1, lref) =>
          match allocDict st1 { mib := node.mib, table := some tbl,
                                symbolsRef := some lref, symbol := none } with
          | (st2, dref) =>
            .ok { st2 with coll := odSet st2.coll node.oid dref, pnode := some dref }
    else if nt = "column".data then
      let tOid := column_table_oid node.oid
      let created : Except PyErr GenState :=
        match alookup tOid st.coll with
        | some _ => .ok st
        | none =>
          match st.pnode with
          | none => .error .unboundLocal
          | some r =>
            match allocList st [] with
            | (st1, lref) =>
              let d := getDict st1 r
              let st2 := setDict st1 r
                { d with table := some { name := none, oid := tOid, description := none },
                         symbolsRef := some lref }
              .ok { st2 with coll := odSet st2.coll tOid r }
      match created with
      | .error e => .error e
      | .ok st3 =>
        let sym : SymD :=
          { name := node.name, oid := node.oid, description := node.description }
        match alookup tOid st3.coll with
        | none => .error .keyError
        | some r2 =>
          match (getDict st3 r2).symbolsRef with
          | none => .error .keyError
          | some lref => .ok (setList st3 lref (getList st3 lref ++ [sym]))
    else if nt = "scalar".data then
      let noid := normalize_scalar_oid node.oid
      let sym : SymD := { name := node.name, oid := noid, description := node.description }
      match allocDict st { mib := node.mib, table := none, symbolsRef := none,
                           symbol := some sym } with
      | (st1, dref) =>
        .ok { st1 with coll := odSet st1.coll noid dref, pnode := some dref }
    else .ok st

/-- A metrics entry as produced at the end of generate_profile_from_mibs,
with the symbols list reference resolved to its content. -/
structure MetricOut where
  mib : PyStr
  table : Option TableD
  symbols : Option (List SymD)
  symbol : Option SymD
  deriving DecidableEq, Repr

def resolveDict (st : GenState) (r : Nat) : MetricOut :=
  let d := getDict st r
  { mib := d.mib, table := d.table, symbols := d.symbolsRef.map (getList st),
    symbol := d.symbol }

def genFold : GenState → List OidNode → Except PyErr GenState
  | st, [] => .ok st
  | st, n :: rest =>
    match genStep st n with
    | .error e => .error e
    | .ok st2 => genFold st2 rest

/-- The profile assembly loop of generate_profile_from_mibs followed by
the final flattening of the collection into the metrics list, in
first-insertion key order. -/
def assemble_profile (nodes : List OidNode) : Except PyErr (List MetricOut) :=
  match genFold GenState.empty nodes with
  | .error e => .error e
  | .ok st => .ok (st.coll.map (fun kv => resolveDict st kv.2))

/-- The inner classification loop of _extract_oids_from_mibs over one
filtered MIB tree: records rejected by OidNode.init are skipped,
non-objecttype and middle nodes are dropped, and unknown nodes are
reported as (mib, name, oid) warning triples yet still appended to the
output — the source prints the warning and has no continue. -/
def classifyAll (mib : PyStr) :
    List (PyStr × RawRecord) → List OidNode × List (PyStr × PyStr × PyStr)
  | [] => ([], [])
  | (_, r) :: rest =>
    match classifyAll mib rest with
    | (ns, ws) =>
      match OidNode.init mib r with
      | .error _ => (ns, ws)
      | .ok (n, _) =>
        if !n.is_object then (ns, ws)
        else if !n.is_readable then (ns, ws)
        else if n.is_middle_node then (ns, ws)
        else if n.is_unknown then (n :: ns, (n.mib, n.name, n.oid) :: ws)
        else (n :: ns, ws)

/-- _extract_oids_from_mibs on the already loaded JSON trees, in MIB
order: apply the OID filter per MIB, then classify, concatenating nodes
and warnings across MIBs. -/
def extract_oids_from_json :
    List (PyStr × List (PyStr × RawRecord)) →
    Option (List (PyStr × List PyStr)) →
    Except PyErr (List OidNode × List (PyStr × PyStr × PyStr))
  | [], _ => .ok ([], [])
  | (mib, jm) :: rest, fd =>
    match filter_mib_oids mib jm fd with
    | .error e => .error e
    | .ok fjm =>
      match extract_oids_from_json rest fd with
      | .error e => .error e
      | .ok (ns, ws) =>
        match classifyAll mib fjm with
        | (here, hw) => .ok (here ++ ns, hw ++ ws)

/-- generate_profile_from_mibs on loaded JSON trees: extract the nodes,
then assemble the profile; returns the metrics list together with the
unknown-node warnings emitted on the way. -/
def generate_profile_from_mibs
    (mibs : List (PyStr × List (PyStr × RawRecord)))
    (fd : Option (List (PyStr × List PyStr))) :
    Except PyErr (List MetricOut × List (PyStr × PyStr × PyStr)) :=
  match extract_oids_from_json mibs fd with
  | .error e => .error e
  | .ok (ns, ws) =>
    match assemble_profile ns with
    | .error e => .error e
    | .ok ms => .ok (ms, ws)

/-- A classified table node, as _extract_oids_from_mibs would deliver it
to the assembler. -/
def tabNode : OidNode :=
  { is_object := true, name := "ifTable".data, oid := "1.3.6.1.2.1.2.2".data,
    mib := "IF-MIB".data,
    node := { name := some "ifTable".data, oid := some "1.3.6.1.2.1.2.2".data,
              cls := some "objecttype".data, nodetype := some "table".data,
              maxaccess := none, description := none, mibKey := some "IF-MIB".data },
    is_readable := true, is_middle_node := false, is_unknown := false,
    max_access := none, node_type := some "table".data, description := none }

/-- A classified column node under the OID of tabNode. -/
def colNode : OidNode :=
  { is_object := true, name := "ifInOctets".data, oid := "1.3.6.1.2.1.2.2.1.10".data,
    mib := "IF-MIB".data,
    node := { name := some "ifInOctets".data, oid := some "1.3.6.1.2.1.2.2.1.10".data,
              cls := some "objecttype".data, nodetype := some "column".data,
              maxaccess := none, description := none, mibKey := some "IF-MIB".data },
    is_readable := true, is_middle_node := false, is_unknown := false,
    max_access := none, node_type := some "column".data, description := none }

/-- Claim C1 fails on the code: assembling the table before its column
succeeds, but assembling the very same nodes with the column first
crashes with UnboundLocalError, because the column branch reads the
loop-local profile_node before any iteration has assigned it.  The two
orders therefore do not yield identical entries. -/
theorem generate_order_dependence_bug :
    assemble_profile [tabNode, colNode]
      = .ok [{ mib := "IF-MIB".data,
               table := some { name := some "ifTable".data,
                               oid := "1.3.6.1.2.1.2.2".data, description := none },
               symbols := some [{ name := "ifInOctets".data,
                                  oid := "1.3.6.1.2.1.2.2.1.10".data,
                                  description := none }],
               symbol := none }]
    ∧ assemble_profile [colNode, tabNode] = .error .unboundLocal :=
  ⟨rfl, rfl⟩

/-- A classified scalar node of MIB M1. -/
def scalNodeM1 : OidNode :=
  { is_object := true, name := "s".data, oid := "1.2.3".data, mib := "M1".data,
    node := { name := some "s".data, oid := some "1.2.3".data,
              cls := some "objecttype".data, nodetype := some "scalar".data,
              maxaccess := none, description := none, mibKey := some "M1".data },
    is_readable := true, is_middle_node := false, is_unknown := false,
    max_access := none, node_type := some "scalar".data, description := none }

/-- A classified column node of MIB M2 whose table OID 7.8.9 is not in
the collection. -/
def colNodeM2 : OidNode :=
  { is_object := true, name := "c".data, oid := "7.8.9.1.5".data, mib := "M2".data,
    node := { name := some "c".data, oid := some "7.8.9.1.5".data,
              cls := some "objecttype".data, nodetype := some "column".data,
              maxaccess := none, description := none, mibKey := some "M2".data },
    is_readable := true, is_middle_node := false, is_unknown := false,
    max_access := none, node_type := some "column".data, description := none }

/-- The corrupted entry produced when colNodeM2 reuses the dictionary of
the preceding scalar node: a scalar entry of MIB M1 polluted with the
provisional table and symbols of the column from M2, exposed under both keys. -/
def pollutedOut : MetricOut :=
  { mib := "M1".data,
    table := some { name := none, oid := "7.8.9".data, description := none },
    symbols := some [{ name := "c".data, oid := "7.8.9.1.5".data, description := none }],
    symbol := some { name := "s".data, oid := "1.2.3.0".data, description := none } }

/-- Claim C3 fails on the code: a column whose table OID is absent never
gets a fresh provisional entry with its own MIB.  As the first processed
node it crashes with UnboundLocalError; after a previous node it reuses
and mutates the dictionary of that node, so the provisional entry carries the
previous MIB (M1, not the column MIB M2), and the previous scalar entry is
itself corrupted into an aliased table entry. -/
theorem provisional_table_entry_bug :
    assemble_profile [colNodeM2] = .error .unboundLocal
    ∧ assemble_profile [scalNodeM1, colNodeM2] = .ok [pollutedOut, pollutedOut]
    ∧ pollutedOut.mib ≠ colNodeM2.mib :=
  ⟨rfl, rfl, by decide⟩

/-- An objecttype record without a nodetype key. -/
def recUnknown : RawRecord :=
  { name := some "x".data, oid := some "1.2.3".data, cls := some "objecttype".data,
    nodetype := none, maxaccess := none, description := none, mibKey := none }

/-- The classified unknown node the extractor produces for recUnknown. -/
def unknownNode : OidNode :=
  { is_object := true, name := "x".data, oid := "1.2.3".data, mib := "M".data,
    node := { recUnknown with mibKey := some "M".data },
    is_readable := true, is_middle_node := false, is_unknown := true,
    max_access := none, node_type := none, description := none }

/-- Claim C2 fails on the code: a node of class objecttype without a
nodetype key is reported as a warning but still appended to the
extraction output (the warning branch has no continue), and the
assembler loop then reads node_type on it, raising AttributeError.
Running without the record yields an empty profile without error, so
the resulting metrics are not the same as if the node were absent. -/
theorem unknown_nodetype_crash_bug :
    generate_profile_from_mibs [("M".data, [("x".data, recUnknown)])] none
      = .error .attributeError
    ∧ generate_profile_from_mibs [("M".data, [])] none = .ok ([], [])
    ∧ extract_oids_from_json [("M".data, [("x".data, recUnknown)])] none
        = .ok ([unknownNode], [("M".data, "x".data, "1.2.3".data)]) :=
  ⟨rfl, rfl, rfl⟩

/-- A profile document: metrics list and the extends list of base
profile filenames.  _recursively_expand_profile reads both with
.get(key, []), so an absent key behaves as the empty list. -/
structure ProfileDoc where
  metrics : List MetricY
  ext : List PyStr
  deriving Repr

/-- The extends loop of _recursively_expand_profile, parameterised over
the recursive expansion step applied to one base filename. -/
def expandBases (step : PyStr → List MetricY → Option (List MetricY)) :
    List PyStr → List MetricY → Option (List MetricY)
  | [], acc => some acc
  | b :: rest, acc =>
    match step b acc with
    | none => none
    | some acc2 => expandBases step rest acc2

/-- _recursively_expand_profile(filename, data) as a function of the
metrics accumulated in data so far: prepend the metrics of the named
document ahead of the accumulated ones, then recurse into each base
listed under extends, in order.  Documents are read from the fixed
association list files (a missing file is the fatal read error, none).
fuel bounds the recursion depth; the Python original recurses without
bound and diverges on an extends cycle. -/
def recursively_expand_profile (files : List (PyStr × ProfileDoc)) :
    Nat → PyStr → List MetricY → Option (List MetricY)
  | 0 => fun _ _ => none
  | fuel + 1 => fun f dataMetrics =>
    match alookup f files with
    | none => none
    | some doc =>
      expandBases (recursively_expand_profile files fuel) doc.ext
        (doc.metrics ++ dataMetrics)

/-- b is a base profile (transitively) extended by f through the
documents in files. -/
inductive ReachesBase (files : List (PyStr × ProfileDoc)) : PyStr → PyStr → Prop where
  | direct : ∀ {f doc b}, alookup f files = some doc → b ∈ doc.ext →
      ReachesBase files f b
  | through : ∀ {f doc c b}, alookup f files = some doc → c ∈ doc.ext →
      ReachesBase files c b → ReachesBase files f b

theorem expandBases_prepend (step : PyStr → List MetricY → Option (List MetricY))
    (hstep : ∀ b a r, step b a = some r → ∃ X, r = X ++ a) :
    ∀ bases acc r, expandBases step bases acc = some r → ∃ X, r = X ++ acc := by
  intro bases
  induction bases with
  | nil =>
    intro acc r h
    cases h
    exact ⟨[], rfl⟩
  | cons b rest ih =>
    intro acc r h
    simp only [expandBases] at h
    cases hs : step b acc with
    | none => simp only [hs] at h; cases h
    | some a2 =>
      simp only [hs] at h
      obtain ⟨X1, hX1⟩ := hstep b acc a2 hs
      obtain ⟨X2, hX2⟩ := ih a2 r h
      exact ⟨X2 ++ X1, by rw [hX2, hX1, List.append_assoc]⟩

theorem expand_prepend (files : List (PyStr × ProfileDoc)) :
    ∀ fuel f acc r, recursively_expand_profile files fuel f acc = some r →
      ∃ X, r = X ++ acc := by
  intro fuel
  induction fuel with
  | zero =>
    intro f acc r h
    simp only [recursively_expand_profile] at h
    cases h
  | succ fuel ih =>
    intro f acc r h
    simp only [recursively_expand_profile] at h
    cases hf : alookup f files with
    | none => simp only [hf] at h; cases h
    | some doc =>
      simp only [hf] at h
      obtain ⟨X, hX⟩ := expandBases_prepend (recursively_expand_profile files fuel)
        (fun b a r2 hr => ih b a r2 hr) doc.ext (doc.metrics ++ acc) r h
      exact ⟨X ++ doc.metrics, by rw [hX, List.append_assoc]⟩

theorem expand_own_any (files : List (PyStr × ProfileDoc)) :
    ∀ fuel f acc r, recursively_expand_profile files fuel f acc = some r →
      ∃ doc X, alookup f files = some doc ∧ r = X ++ doc.metrics ++ acc := by
  intro fuel
  cases fuel with
  | zero =>
    intro f acc r h
    simp only [recursively_expand_profile] at h
    cases h
  | succ fuel =>
    intro f acc r h
    simp only [recursively_expand_profile] at h
    cases hf : alookup f files with
    | none => simp only [hf] at h; cases h
    | some doc =>
      simp only [hf] at h
      obtain ⟨X, hX⟩ := expandBases_prepend (recursively_expand_profile files fuel)
        (fun b a r2 hr => expand_prepend files fuel b a r2 hr)
        doc.ext (doc.metrics ++ acc) r h
      refine ⟨doc, X, rfl, ?_⟩
      rw [List.append_assoc]
      exact hX

theorem expandBases_step_called (step : PyStr → List MetricY → Option (List MetricY))
    (c : PyStr) :
    ∀ bases acc r, c ∈ bases → expandBases step bases acc = some r →
      ∃ a r2, step c a = some r2 := by
  intro bases
  induction bases with
  | nil => intro acc r hc h; cases hc
  | cons b rest ih =>
    intro acc r hc h
    simp only [expandBases] at h
    cases hs : step b acc with
    | none => simp only [hs] at h; cases h
    | some a2 =>
      simp only [hs] at h
      rcases List.mem_cons.mp hc with hcb | hmem
      · subst hcb
        exact ⟨acc, a2, hs⟩
      · exact ih a2 r hmem h

theorem expandBases_target (step : PyStr → List MetricY → Option (List MetricY))
    (hstep : ∀ b a r, step b a = some r → ∃ X, r = X ++ a)
    (m : List MetricY) (c : PyStr)
    (hc : ∀ a r, step c a = some r → ∃ X Y, r = X ++ m ++ Y ++ a) :
    ∀ bases acc r, c ∈ bases → expandBases step bases acc = some r →
      ∃ X Y, r = X ++ m ++ Y ++ acc := by
  intro bases
  induction bases with
  | nil => intro acc r hcm h; cases hcm
  | cons b rest ih =>
    intro acc r hcm h
    simp only [expandBases] at h
    cases hs : step b acc with
    | none => simp only [hs] at h; cases h
    | some a2 =>
      simp only [hs] at h
      rcases List.mem_cons.mp hcm with hcb | hmem
      · subst hcb
        obtain ⟨X, Y, hXY⟩ := hc acc a2 hs
        obtain ⟨Z, hZ⟩ := expandBases_prepend step hstep rest a2 r h
        refine ⟨Z ++ X, Y, ?_⟩
        rw [hZ, hXY]
        simp [List.append_assoc]
      · obtain ⟨W, hW⟩ := hstep b acc a2 hs
        obtain ⟨X, Y, hXY⟩ := ih a2 r hmem h
        refine ⟨X, Y ++ W, ?_⟩
        rw [hXY, hW]
        simp [List.append_assoc]

theorem expand_reach (files : List (PyStr × ProfileDoc)) {f b : PyStr}
    (hreach : ReachesBase files f b) :
    ∀ fuel acc r doc, recursively_expand_profile files fuel f acc = some r →
      alookup f files = some doc →
      ∃ bdoc X Y, alookup b files = some bdoc
        ∧ r = X ++ bdoc.metrics ++ Y ++ doc.metrics ++ acc := by
  induction hreach with
  | @direct f doc b hf hb =>
    intro fuel acc r doc2 h hf2
    have hde : doc2 = doc := by
      rw [hf] at hf2
      exact (Option.some.inj hf2).symm
    rw [hde]
    cases fuel with
    | zero => simp only [recursively_expand_profile] at h; cases h
    | succ fuel =>
      simp only [recursively_expand_profile, hf] at h
      cases hbl : alookup b files with
      | none =>
        obtain ⟨a, r2, hs⟩ := expandBases_step_called
          (recursively_expand_profile files fuel) b doc.ext (doc.metrics ++ acc) r hb h
        obtain ⟨bd, X, hbd, _⟩ := expand_own_any files fuel b a r2 hs
        rw [hbl] at hbd
        cases hbd
      | some bdoc =>
        have hc : ∀ a r2, recursively_expand_profile files fuel b a = some r2 →
            ∃ X Y, r2 = X ++ bdoc.metrics ++ Y ++ a := by
          intro a r2 hs
          obtain ⟨bd, X, hbd, hX⟩ := expand_own_any files fuel b a r2 hs
          rw [hbl] at hbd
          have hbe : bd = bdoc := (Option.some.inj hbd).symm
          subst hbe
          exact ⟨X, [], by simpa using hX⟩
        obtain ⟨X, Y, hXY⟩ := expandBases_target
          (recursively_expand_profile files fuel)
          (fun b2 a r2 hr => expand_prepend files fuel b2 a r2 hr)
          bdoc.metrics b hc doc.ext (doc.metrics ++ acc) r hb h
        refine ⟨bdoc, X, Y, rfl, ?_⟩
        rw [List.append_assoc]
        exact hXY
  | @through f doc c b hf hcm hrec ih =>
    intro fuel acc r doc2 h hf2
    have hde : doc2 = doc := by
      rw [hf] at hf2
      exact (Option.some.inj hf2).symm
    rw [hde]
    cases fuel with
    | zero => simp only [recursively_expand_profile] at h; cases h
    | succ fuel =>
      simp only [recursively_expand_profile, hf] at h
      obtain ⟨a0, r0, hs0⟩ := expandBases_step_called
        (recursively_expand_profile files fuel) c doc.ext (doc.metrics ++ acc) r hcm h
      obtain ⟨cdoc, X0, hcd, _⟩ := expand_own_any files fuel c a0 r0 hs0
      obtain ⟨bdoc, X1, Y1, hbd, _⟩ := ih fuel a0 r0 cdoc hs0 hcd
      have hc : ∀ a r2, recursively_expand_profile files fuel c a = some r2 →
          ∃ X Y, r2 = X ++ bdoc.metrics ++ Y ++ a := by
        intro a r2 hs
        obtain ⟨bdoc2, X3, Y3, hbd2, hshape⟩ := ih fuel a r2 cdoc hs hcd
        rw [hbd] at hbd2
        have hbe : bdoc2 = bdoc := (Option.some.inj hbd2).symm
        subst hbe
        refine ⟨X3, Y3 ++ cdoc.metrics, ?_⟩
        rw [hshape]
        simp [List.append_assoc]
      obtain ⟨X, Y, hXY⟩ := expandBases_target
        (recursively_expand_profile files fuel)
        (fun b2 a r2 hr => expand_prepend files fuel b2 a r2 hr)
        bdoc.metrics c hc doc.ext (doc.metrics ++ acc) r hcm h
      refine ⟨bdoc, X, Y, hbd, ?_⟩
      rw [List.append_assoc]
      exact hXY

theorem expand_succeeds (files : List (PyStr × ProfileDoc)) (rank : PyStr → Nat)
    (hwf : ∀ f doc, alookup f files = some doc → ∀ b ∈ doc.ext,
        rank b < rank f ∧ ∃ bd, alookup b files = some bd) :
    ∀ fuel f doc, alookup f files = some doc → rank f < fuel →
      ∀ acc, ∃ r, recursively_expand_profile files fuel f acc = some r := by
  intro fuel
  induction fuel with
  | zero =>
    intro f doc hf hr acc
    exact absurd hr (Nat.not_lt_zero _)
  | succ fuel ih =>
    intro f doc hf hr acc
    simp only [recursively_expand_profile, hf]
    have hb : ∀ b ∈ doc.ext, rank b < fuel ∧ ∃ bd, alookup b files = some bd := by
      intro b hb2
      obtain ⟨h1, h2⟩ := hwf f doc hf b hb2
      exact ⟨by omega, h2⟩
    have inner : ∀ bases,
        (∀ b ∈ bases, rank b < fuel ∧ ∃ bd, alookup b files = some bd) →
        ∀ A, ∃ r, expandBases (recursively_expand_profile files fuel) bases A
          = some r := by
      intro bases
      induction bases with
      | nil => intro _ A; exact ⟨A, rfl⟩
      | cons b rest ihb =>
        intro hball A
        obtain ⟨hrb, bd, hbd⟩ := hball b (List.mem_cons_self b rest)
        obtain ⟨r1, hr1⟩ := ih b bd hbd hrb A
        simp only [expandBases, hr1]
        exact ihb (fun b2 h2 => hball b2 (List.mem_cons_of_mem b h2)) r1
    exact inner doc.ext hb (doc.metrics ++ acc)

/-- Claim C9: when every extends reference resolves to a present
document and the reference graph allows a decreasing rank (it is
acyclic), expansion of a present document terminates with depth budget
rank f + 1, the own metrics of the document form the tail of the result, and
the metrics of every transitively extended base appear ahead of that
final block. -/
theorem profile_expansion_bases_first (files : List (PyStr × ProfileDoc))
    (rank : PyStr → Nat)
    (hwf : ∀ f doc, alookup f files = some doc → ∀ b ∈ doc.ext,
        rank b < rank f ∧ ∃ bd, alookup b files = some bd)
    (f : PyStr) (doc : ProfileDoc) (hf : alookup f files = some doc) :
    ∃ r, recursively_expand_profile files (rank f + 1) f [] = some r
      ∧ (∃ X, r = X ++ doc.metrics)
      ∧ ∀ b, ReachesBase files f b →
          ∃ bdoc X Y, alookup b files = some bdoc
            ∧ r = X ++ bdoc.metrics ++ Y ++ doc.metrics := by
  obtain ⟨r, hr⟩ := expand_succeeds files rank hwf (rank f + 1) f doc hf
    (Nat.lt_succ_self _) []
  refine ⟨r, hr, ?_, ?_⟩
  · obtain ⟨doc2, X, hf2, hX⟩ := expand_own_any files (rank f + 1) f [] r hr
    rw [hf] at hf2
    cases hf2
    exact ⟨X, by simpa using hX⟩
  · intro b hreach
    obtain ⟨bdoc, X, Y, hb, hshape⟩ := expand_reach files hreach (rank f + 1) [] r doc hr hf
    exact ⟨bdoc, X, Y, hb, by simpa using hshape⟩

/-- The base document of the C9 witness: one scalar metric, no bases. -/
def baseDoc : ProfileDoc :=
  { metrics := [{ mib := some "B".data, table := none,
                  symbol := some { name := some "b".data, oid := some "1.1".data,
                                   description := none } }],
    ext := [] }

/-- The top document of the C9 witness: one metric, extending base. -/
def topDoc : ProfileDoc :=
  { metrics := [{ mib := some "T".data, table := none,
                  symbol := some { name := some "t".data, oid := some "2.2".data,
                                   description := none } }],
    ext := ["base".data] }

/-- The two-document file system of the C9 witness. -/
def files2 : List (PyStr × ProfileDoc) :=
  [("base".data, baseDoc), ("top".data, topDoc)]

/-- A rank function witnessing that the extends graph of files2 is
acyclic. -/
def rank2 (f : PyStr) : Nat := if f = "top".data then 1 else 0

theorem files2_wf : ∀ f doc, alookup f files2 = some doc → ∀ b ∈ doc.ext,
    rank2 b < rank2 f ∧ ∃ bd, alookup b files2 = some bd := by
  intro f doc hf b hb
  simp only [files2, alookup] at hf
  by_cases h1 : "base".data = f
  · rw [if_pos h1] at hf
    cases hf
    simp [baseDoc] at hb
  · rw [if_neg h1] at hf
    by_cases h2 : "top".data = f
    · rw [if_pos h2] at hf
      cases hf
      simp [topDoc] at hb
      subst hb
      subst h2
      exact ⟨by decide, baseDoc, rfl⟩
    · rw [if_neg h2] at hf
      cases hf

/-- Witness for C9 at the concrete two-document file system: expansion
of top succeeds with fuel 2, ends with the metrics of top, and the
metrics of base appear ahead of them. -/
theorem profile_expansion_bases_first_witness :
    ∃ r, recursively_expand_profile files2 (rank2 "top".data + 1) "top".data []
          = some r
      ∧ (∃ X, r = X ++ topDoc.metrics)
      ∧ (∃ bdoc X Y, alookup "base".data files2 = some bdoc
          ∧ r = X ++ bdoc.metrics ++ Y ++ topDoc.metrics) := by
  obtain ⟨r, h1, h2, h3⟩ := profile_expansion_bases_first files2 rank2 files2_wf
    "top".data topDoc rfl
  exact ⟨r, h1, h2, h3 "base".data (ReachesBase.direct rfl (by decide))⟩
